import Mathlib

/-!
# Verification of the static-site builder and dev server

Shallow embedding of `builder.py` (StaticSiteBuilder: directive extraction,
template substitution, output-path rule, clean/copy/compile pipeline) and
`server.py` (QuietHTTPRequestHandler.do_GET, FileChangeHandler debounce,
StaticSiteServer watch filter), with theorems settling the specification
claims about them.

Strings are modelled as `List Char` (ASCII behaviour of the Python string
operations involved).  Python `time.time()` timestamps are modelled as `ℚ`.
-/

namespace Site

/-- Python `\s` for ASCII text: space, tab, newline, carriage return,
vertical tab, form feed. -/
def isSpace (c : Char) : Bool :=
  c = ' ' || c = '\t' || c = '\n' || c = '\r' || c = '\x0b' || c = '\x0c'

/-- Python `\w` for ASCII text: letters, digits, underscore. -/
def isWordChar (c : Char) : Bool :=
  c.isAlphanum || c = '_'

/-- Python `[\w.-]` (the BACKGROUND token charset): word chars, dot, hyphen. -/
def isTokenChar (c : Char) : Bool :=
  isWordChar c || c = '.' || c = '-'

/-- Fuel-driven core of Python `str.replace(pat, rep)` (replaces every
non-overlapping occurrence, scanning left to right).  The fuel is only a
termination device; `replaceAll` supplies `s.length`, which is enough
because every step consumes at least one character of `s`. -/
def replaceAllAux (pat rep : List Char) : Nat → List Char → List Char
  | 0, s => s
  | _ + 1, [] => []
  | fuel + 1, c :: rest =>
    if pat.isPrefixOf (c :: rest) then
      rep ++ replaceAllAux pat rep fuel ((c :: rest).drop pat.length)
    else
      c :: replaceAllAux pat rep fuel rest

/-- Python `s.replace(pat, rep)` for a non-empty pattern: replace every
occurrence of `pat` in `s` by `rep`. -/
def replaceAll (pat rep s : List Char) : List Char :=
  replaceAllAux pat rep s.length s

/-- Replace only the first occurrence of `pat` in `s` (this is what the
specification text describes; Python `str.replace` does not do this). -/
def replaceFirstAux (pat rep : List Char) : Nat → List Char → List Char
  | 0, s => s
  | _ + 1, [] => []
  | fuel + 1, c :: rest =>
    if pat.isPrefixOf (c :: rest) then
      rep ++ (c :: rest).drop pat.length
    else
      c :: replaceFirstAux pat rep fuel rest

/-- Replace only the first occurrence of `pat` in `s`. -/
def replaceFirst (pat rep s : List Char) : List Char :=
  replaceFirstAux pat rep s.length s

/-- The `TITLE` substitution marker of a template (`builder.py`, line 94). -/
def titleMarker : List Char := "<!-- TITLE -->".toList

/-- The `BACKGROUND` substitution marker (`builder.py`, line 96). -/
def backgroundMarker : List Char := "<!-- BACKGROUND -->".toList

/-- The `CONTENT` substitution marker (`builder.py`, line 98). -/
def contentMarker : List Char := "<!-- CONTENT -->".toList

/-- Python `str.lower` (ASCII). -/
def pyLower (s : List Char) : List Char :=
  s.map Char.toLower

/-- Python `str.capitalize` (ASCII): first character uppercased, every
remaining character lowercased. -/
def pyCapitalize : List Char → List Char
  | [] => []
  | c :: rest => c.toUpper :: rest.map Char.toLower

/-- `page_name.replace('-', ' ')` in `process_page`. -/
def hyphensToSpaces (s : List Char) : List Char :=
  s.map fun c => if c = '-' then ' ' else c

/-- The derived display title of `process_page` (`builder.py`, lines 92-93):
`page_name.replace('-', ' ').capitalize()`, then the special case mapping
`Index` to `Home`. -/
def prettyPageName (stem : List Char) : List Char :=
  let p := pyCapitalize (hyphensToSpaces stem)
  if p = "Index".toList then "Home".toList else p

/-- The three marker substitutions of `process_page` (`builder.py`,
lines 94-98), in source order: TITLE, then BACKGROUND, then CONTENT, each
via Python `str.replace` (which replaces every occurrence). -/
def substitute (template title bg content : List Char) : List Char :=
  replaceAll contentMarker content
    (replaceAll backgroundMarker bg
      (replaceAll titleMarker title template))


/-- If `pre` is a literal prefix of `s`, return the remainder. -/
def stripLit (pre s : List Char) : Option (List Char) :=
  if pre.isPrefixOf s then some (s.drop pre.length) else none

/-- `extract_template_tag` (`builder.py`, lines 49-55): match the anchored
regex `^\s*<!--\s*TEMPLATE:\s*(\w+)\s*-->\s*\n?` against the content.  On a
match, return the captured name and the content with the matched span
removed (the greedy trailing `\s*` swallows all whitespace after `-->`,
making the final `\n?` vacuous); otherwise return `none` and the content
unchanged.  `\w+` cannot backtrack usefully here because neither `-` nor
any whitespace character is a word character, so greedy matching is exact. -/
def extractTemplateTag (content : List Char) : Option (List Char) × List Char :=
  match stripLit ("<!--".toList) (content.dropWhile isSpace) with
  | none => (none, content)
  | some s1 =>
    match stripLit ("TEMPLATE:".toList) (s1.dropWhile isSpace) with
    | none => (none, content)
    | some s2 =>
      let s3 := s2.dropWhile isSpace
      let name := s3.takeWhile isWordChar
      if name = [] then (none, content)
      else
        match stripLit ("-->".toList) ((s3.dropWhile isWordChar).dropWhile isSpace) with
        | none => (none, content)
        | some s4 => (some name, s4.dropWhile isSpace)

/-- The `([\w.-]+)\s*-->` tail of the BACKGROUND regex, including the one
productive backtracking case: the greedy token run `M` may give back a
trailing `--` to let `-->` match when the arrow follows the token with no
intervening whitespace (e.g. `img.png-->`).  No other give-back can
succeed, because `>` is not a token character and every non-token
character after `M` is also not `-`. -/
def backgroundTokenArrow (s : List Char) : Option (List Char × List Char) :=
  let m := s.takeWhile isTokenChar
  let rest := s.dropWhile isTokenChar
  if m = [] then none
  else
    match stripLit ("-->".toList) (rest.dropWhile isSpace) with
    | some s4 => some (m, s4)
    | none =>
      if 3 ≤ m.length ∧ m.drop (m.length - 2) = ['-', '-'] ∧ rest.take 1 = ['>'] then
        some (m.take (m.length - 2), rest.drop 1)
      else none

/-- `extract_background_tag` (`builder.py`, lines 57-63): the anchored regex
`^\s*<!--\s*BACKGROUND:\s*([\w.-]+)\s*-->\s*\n?`, with the matched span
stripped on success. -/
def extractBackgroundTag (content : List Char) : Option (List Char) × List Char :=
  match stripLit ("<!--".toList) (content.dropWhile isSpace) with
  | none => (none, content)
  | some s1 =>
    match stripLit ("BACKGROUND:".toList) (s1.dropWhile isSpace) with
    | none => (none, content)
    | some s2 =>
      match backgroundTokenArrow (s2.dropWhile isSpace) with
      | none => (none, content)
      | some (tok, s4) => (some tok, s4.dropWhile isSpace)

/-- One page source file: its stem (filename without extension) and its raw
text. -/
structure Page where
  stem : List Char
  content : List Char
deriving DecidableEq, Repr

/-- Why `process_page` wrote no output for a page: the printed diagnostic. -/
inductive SkipReason where
  | noTemplate
  | noBackground
  | templateNotFound
deriving DecidableEq, Repr

/-- A template store: `load_template` (`builder.py`, lines 65-71) looks up
`<name>.html` among the template files and raises `FileNotFoundError` when
it is absent. -/
def loadTemplate (templates : List (List Char × List Char)) (name : List Char) :
    Option (List Char) :=
  (templates.find? fun f => f.1 = name ++ ".html".toList).map (·.2)

/-- The output path of a compiled page relative to the build root
(`builder.py`, lines 100-106): stem `index` (case-insensitively, via
`page_name.lower()`) maps to `index.html` at the root, any other stem to
`<stem>/index.html`. -/
def outputPathOf (stem : List Char) : List (List Char) :=
  if pyLower stem = "index".toList then ["index.html".toList]
  else [stem, "index.html".toList]

/-- `process_page` (`builder.py`, lines 73-114): extract the TEMPLATE
directive, then the BACKGROUND directive from the stripped content; skip
(with the corresponding diagnostic) if either is missing or the referenced
template file does not exist; otherwise substitute the three markers and
return the output path and final text.  Filesystem writes themselves are
modelled in `build`. -/
def processPage (templates : List (List Char × List Char)) (p : Page) :
    Except SkipReason (List (List Char) × List Char) :=
  match extractTemplateTag p.content with
  | (none, _) => .error .noTemplate
  | (some tname, c1) =>
    match extractBackgroundTag c1 with
    | (none, _) => .error .noBackground
    | (some bg, c2) =>
      match loadTemplate templates tname with
      | none => .error .templateNotFound
      | some tpl =>
        .ok (outputPathOf p.stem, substitute tpl (prettyPageName p.stem) bg c2)

/-- `build_pages` (`builder.py`, lines 116-127) over a given page list: each
page is processed independently; skipped pages contribute no output file. -/
def pageOutputs (templates : List (List Char × List Char)) (ps : List Page) :
    List (List (List Char) × List Char) :=
  ps.filterMap fun p => (processPage templates p).toOption

/-- One direct child of a directory: a regular file or a subdirectory with
its own subtree. -/
inductive Node where
  | file (name : List Char) (content : List Char)
  | dir (name : List Char) (children : List Node)

/-- The name of a directory entry. -/
def nodeName : Node → List Char
  | .file n _ => n
  | .dir n _ => n

/-- The build root directory: an identity token (the directory object that
must survive a clean, per the inode check of the spec) and its direct
children. -/
structure BuildRoot where
  inode : Nat
  children : List Node

/-- The loop body of `clean_build_dir` (`builder.py`, lines 24-28): iterate
over the listed children; `shutil.rmtree` removes a directory child
wholesale, `Path.unlink` removes a file child; either way the entry named
by the item disappears from the directory. -/
def cleanChildren (listing : List Node) (children : List Node) : List Node :=
  listing.foldl (fun acc item => acc.filter fun n => nodeName n ≠ nodeName item) children

/-- `clean_build_dir` (`builder.py`, lines 21-32): if the build root exists,
remove its direct children one by one, keeping the directory object itself;
otherwise create it (empty, with a fresh identity). -/
def cleanBuildDir (fresh : Nat) : Option BuildRoot → BuildRoot
  | some r => ⟨r.inode, cleanChildren r.children r.children⟩
  | none => ⟨fresh, []⟩

/-- Write one file at a relative path below a directory, creating
intermediate directories as needed and overwriting any existing entry of
the same name at each level (`mkdir(exist_ok=True)` plus `open(..., 'w')`). -/
def insertFile (content : List Char) : List (List Char) → List Node → List Node
  | [], ns => ns
  | [name], ns => (ns.filter fun n => nodeName n ≠ name) ++ [.file name content]
  | d :: rest, ns =>
    let sub := match ns.find? fun n => nodeName n = d with
      | some (.dir _ cs) => cs
      | _ => []
    (ns.filter fun n => nodeName n ≠ d) ++ [.dir d (insertFile content rest sub)]

/-- Write a batch of (path, content) files below the build root, in order. -/
def writeAll (root : BuildRoot) (files : List (List (List Char) × List Char)) :
    BuildRoot :=
  files.foldl (fun r f => ⟨r.inode, insertFile f.2 f.1 r.children⟩) root

/-- `copy_data_files` (`builder.py`, lines 34-47): if the data root exists,
every regular file below it is copied to the same relative path below the
build root; if not, nothing is copied. -/
def copyDataFiles : Option (List (List (List Char) × List Char)) →
    List (List (List Char) × List Char)
  | none => []
  | some fs => fs

/-- The three steps of a successful `build` run, in execution order. -/
inductive Step where
  | clean
  | copyData
  | compilePages
deriving DecidableEq, Repr

/-- The project tree as `StaticSiteBuilder` sees it: each root is `none`
when the corresponding directory does not exist.  `templates` maps template
file names to file text, `data` lists the regular files below the data root
(relative path and content), `pages` lists the page files. -/
structure FS where
  templates : Option (List (List Char × List Char))
  pages : Option (List Page)
  data : Option (List (List (List Char) × List Char))
  buildRoot : Option BuildRoot

/-- The outcome of one `build` run: the boolean result, the steps that
actually executed, the page outputs written by `build_pages`, and the final
state of the build root. -/
structure BuildResult where
  success : Bool
  stepsRun : List Step
  written : List (List (List Char) × List Char)
  root : Option BuildRoot

/-- `build` (`builder.py`, lines 129-146): if the templates root is missing
the run returns failure at once, before clean/copy/compile; otherwise it
cleans the build root, copies the data files, compiles every page, and
returns success.  (`fresh` is the identity a newly created build root would
get.)  The model covers the run in which no filesystem operation itself
throws; per-page skips are handled inside `process_page` and never raise. -/
def build (fresh : Nat) (fs : FS) : BuildResult :=
  match fs.templates with
  | none => ⟨false, [], [], fs.buildRoot⟩
  | some ts =>
    let root1 := cleanBuildDir fresh fs.buildRoot
    let dataFiles := copyDataFiles fs.data
    let outs := match fs.pages with
      | none => []
      | some ps => pageOutputs ts ps
    ⟨true, [.clean, .copyData, .compilePages], outs,
      some (writeAll (writeAll root1 dataFiles) outs)⟩

/-! ## `server.py` -/

/-- The ways `super().do_GET()` can fail that `QuietHTTPRequestHandler`
catches (`server.py`, line 27): missing file, OS error, permission error. -/
inductive ReadFailure where
  | fileNotFound
  | osError
  | permissionError
deriving DecidableEq, Repr

/-- An HTTP response: status code, headers, body. -/
structure Response where
  status : Nat
  headers : List (List Char × List Char)
  body : List Char
deriving DecidableEq, Repr

/-- The placeholder page served while a rebuild is in flight
(`server.py`, lines 33-39). -/
def rebuildPageHtml : List Char :=
  ("<!DOCTYPE html>\n<html><head><title>Site Rebuilding</title></head>\n<body style=\"font-family: 'JetBrains Mono', monospace; text-align: center; padding: 50px; background: #000; color: #f5f5dc;\">\n    <h2>Site Rebuilding...</h2>\n    <p>The site is being rebuilt. This page will refresh automatically.</p>\n    <script>setTimeout(() => location.reload(), 2000);</script>\n</body></html>").toList

/-- `QuietHTTPRequestHandler.do_GET` (`server.py`, lines 24-40): delegate to
the generic static file server; if that read fails with any of the caught
exception types, answer 503 with a `Refresh: 2` header, HTML content type,
and the rebuilding placeholder body. -/
def doGET (result : Except ReadFailure Response) : Response :=
  match result with
  | .ok r => r
  | .error _ =>
    ⟨503,
      [("Content-type".toList, "text/html; charset=utf-8".toList),
       ("Refresh".toList, "2".toList)],
      rebuildPageHtml⟩

/-- Split a path string into its `/`-separated components, dropping empty
components (the `Path(event_path).parts` view, for POSIX paths). -/
def splitSlashAux (cur : List Char) : List Char → List (List Char)
  | [] => [cur.reverse]
  | c :: rest =>
    if c = '/' then cur.reverse :: splitSlashAux [] rest
    else splitSlashAux (c :: cur) rest

/-- `Path(p).parts` (POSIX, relative or absolute; the root part is not
material to any claim and empty components are dropped as pathlib does). -/
def pathParts (p : List Char) : List (List Char) :=
  (splitSlashAux [] p).filter fun part => part ≠ []

/-- The last component of a path (`Path.name`), or `[]` for an empty path. -/
def pathName (p : List Char) : List Char :=
  (pathParts p).getLast!

/-- `Path.suffix` as implemented by pathlib: with `i` the index of the last
dot of the name, return the slice from `i` when `0 < i < len(name) - 1`,
else the empty string. -/
def pySuffix (name : List Char) : List Char :=
  let afterDot := (name.reverse.takeWhile fun c => c ≠ '.').length
  if afterDot = name.length then []
  else
    let i := name.length - 1 - afterDot
    if 0 < i ∧ i < name.length - 1 then name.drop i else []

/-- The accepted extension set of `should_rebuild` (`server.py`, line 55). -/
def relevantExtensions : List (List Char) :=
  [".html".toList, ".css".toList, ".js".toList, ".py".toList]

/-- `FileChangeHandler.debounce_seconds` (`server.py`, line 47). -/
def debounceSeconds : ℚ := 1

/-- The debounce state of `FileChangeHandler`: the timestamp recorded by
the last `trigger_rebuild` (`last_rebuild`, initially `0`). -/
structure WatcherState where
  lastRebuild : ℚ
deriving DecidableEq, Repr

/-- `should_rebuild` (`server.py`, lines 49-63): reject when any path
component is literally `build`, when the extension is not in the accepted
set, or when the event falls less than `debounce_seconds` after the last
accepted event; accept otherwise.  `now` is the `time.time()` value read
inside the check. -/
def shouldRebuild (st : WatcherState) (path : List Char) (now : ℚ) : Bool :=
  if "build".toList ∈ pathParts path then false
  else if pySuffix (pathName path) ∉ relevantExtensions then false
  else if now - st.lastRebuild < debounceSeconds then false
  else true

/-- One filesystem event as delivered to the watchdog handler: the source
path, whether it concerns a directory, and its timestamp (the model reads
`time.time()` once per event; the code reads it again nanoseconds later in
`trigger_rebuild` when storing `last_rebuild`). -/
structure WatchEvent where
  path : List Char
  isDirectory : Bool
  time : ℚ
deriving DecidableEq, Repr

/-- An event qualifies when it is not a directory event, no path component
is literally `build`, and its extension is accepted — i.e. it passes every
filter of `should_rebuild` except the debounce window. -/
def isQualifying (e : WatchEvent) : Bool :=
  !e.isDirectory &&
    ("build".toList ∉ pathParts e.path : Bool) &&
    (pySuffix (pathName e.path) ∈ relevantExtensions : Bool)

/-- `on_modified` / `on_created` / `on_deleted` followed by
`trigger_rebuild` (`server.py`, lines 65-84): an accepted event records its
timestamp as `last_rebuild` and spawns one rebuild; a rejected event
changes nothing.  Returns the new state and whether a rebuild was
triggered. -/
def handleEvent (st : WatcherState) (e : WatchEvent) : WatcherState × Bool :=
  if !e.isDirectory && shouldRebuild st e.path e.time then (⟨e.time⟩, true)
  else (st, false)

/-- Fold step for a stream of events: thread the debounce state and count
accepted triggers. -/
def watchStep (acc : WatcherState × Nat) (e : WatchEvent) : WatcherState × Nat :=
  let r := handleEvent acc.1 e
  (r.1, acc.2 + (if r.2 then 1 else 0))

/-- Run a sequence of events through the handler, counting the accepted
rebuild triggers. -/
def processEvents (st : WatcherState) (es : List WatchEvent) : WatcherState × Nat :=
  es.foldl watchStep (st, 0)

/-! ## Spec-side definitions (for refinement comparisons) -/

/-- The substitution the specification and claim C1 describe: each marker
replaced at its first occurrence only, later occurrences left verbatim. -/
def substituteFirstOnly (template title bg content : List Char) : List Char :=
  replaceFirst contentMarker content
    (replaceFirst backgroundMarker bg
      (replaceFirst titleMarker title template))

/-- Claim C6's output-path rule, stated from the spec's words. -/
def specOutputPath (stem : List Char) : List (List Char) :=
  if pyLower stem = "index".toList then ["index.html".toList]
  else [stem, "index.html".toList]

/-- Claim C7's title rule as literally stated: hyphens to spaces, then only
the first letter capitalized (the rest untouched), with the `index` special
case. -/
def specTitleClaim (stem : List Char) : List Char :=
  if pyLower stem = "index".toList then "Home".toList
  else
    match stem.map (fun c => if c = '-' then ' ' else c) with
    | [] => []
    | c :: rest => c.toUpper :: rest

/-- First character uppercased and every remaining character lowercased —
the amended reading of "capitalize". -/
def upcaseFirstLowerRest : List Char → List Char
  | [] => []
  | c :: rest => c.toUpper :: rest.map Char.toLower

/-- The amended title rule of claim C7: hyphens to spaces, first character
uppercased, remaining characters lowercased; a stem that is `index` up to
case yields `Home`. -/
def specTitleAmended (stem : List Char) : List Char :=
  if pyLower stem = "index".toList then "Home".toList
  else upcaseFirstLowerRest (stem.map fun c => if c = '-' then ' ' else c)

/-! ## Lemmas about `replaceAll` -/

lemma isPrefixOf_append_self (l t : List Char) : l.isPrefixOf (l ++ t) = true := by
  induction l with
  | nil => simp [ List.isPrefixOf]
  | cons c cs ih => simp [ List.isPrefixOf, ih]

lemma isPrefixOf_cons_of_ne {pc c : Char} (pt rest : List Char) (h : c ≠ pc) :
    (pc :: pt).isPrefixOf (c :: rest) = false := by
  have hb : (pc == c) = false := beq_eq_false_iff_ne.mpr fun he => h he.symm
  simp [ List.isPrefixOf, hb]

lemma replaceAllAux_fuel (pat rep : List Char) (hp : pat ≠ []) :
    ∀ (f g : Nat) (t : List Char), t.length ≤ f → t.length ≤ g →
      replaceAllAux pat rep f t = replaceAllAux pat rep g t := by
  intro f
  induction f with
  | zero =>
    intro g t hf _
    have ht : t = [] := List.eq_nil_of_length_eq_zero (Nat.le_zero.mp hf)
    subst ht
    cases g <;> rfl
  | succ f ih =>
    intro g t hf hg
    cases t with
    | nil => cases g <;> rfl
    | cons c rest =>
      cases g with
      | zero => simp at hg
      | succ g =>
        have hp1 : 1 ≤ pat.length := List.length_pos.mpr hp
        cases hm : pat.isPrefixOf (c :: rest) with
        | true =>
          have hlen : ((c :: rest).drop pat.length).length ≤ rest.length := by
            simp only [List.length_drop, List.length_cons]
            omega
          simp only [replaceAllAux, hm, if_true]
          congr 1
          exact ih g _ (le_trans hlen (Nat.le_of_succ_le_succ hf))
            (le_trans hlen (Nat.le_of_succ_le_succ hg))
        | false =>
          simp only [replaceAllAux, hm, Bool.false_eq_true, if_false]
          congr 1
          exact ih g rest (Nat.le_of_succ_le_succ hf) (Nat.le_of_succ_le_succ hg)

lemma replaceAll_cons_neg (pat rep : List Char) {c : Char} {rest : List Char}
    (h : pat.isPrefixOf (c :: rest) = false) :
    replaceAll pat rep (c :: rest) = c :: replaceAll pat rep rest := by
  unfold replaceAll
  simp only [List.length_cons, replaceAllAux, h, Bool.false_eq_true, if_false]

lemma replaceAll_cons_pos (pat rep : List Char) (hp : pat ≠ []) {c : Char} {rest : List Char}
    (h : pat.isPrefixOf (c :: rest) = true) :
    replaceAll pat rep (c :: rest) = rep ++ replaceAll pat rep ((c :: rest).drop pat.length) := by
  have hp1 : 1 ≤ pat.length := List.length_pos.mpr hp
  unfold replaceAll
  simp only [List.length_cons, replaceAllAux, h, if_true]
  congr 1
  apply replaceAllAux_fuel pat rep hp
  · simp only [List.length_drop, List.length_cons]
    omega
  · exact Nat.le_refl _

lemma replaceAll_emit (pat rep : List Char) (hp : pat ≠ []) (rest : List Char) :
    replaceAll pat rep (pat ++ rest) = rep ++ replaceAll pat rep rest := by
  obtain ⟨pc, pt, rfl⟩ : ∃ pc pt, pat = pc :: pt := by
    cases pat with
    | nil => exact absurd rfl hp
    | cons a b => exact ⟨a, b, rfl⟩
  have h : (pc :: pt).isPrefixOf (pc :: (pt ++ rest)) = true := isPrefixOf_append_self _ _
  rw [List.cons_append, replaceAll_cons_pos _ _ hp h]
  congr 1
  rw [← List.cons_append, List.drop_left]

lemma replaceAll_skip_char (pat rep : List Char) {pc : Char} {pt : List Char}
    (hp : pat = pc :: pt) {c : Char} (s : List Char) (h : c ≠ pc) :
    replaceAll pat rep (c :: s) = c :: replaceAll pat rep s := by
  subst hp
  exact replaceAll_cons_neg _ _ (isPrefixOf_cons_of_ne _ _ h)

lemma replaceAll_of_all_ne (pat rep : List Char) {pc : Char} {pt : List Char}
    (hp : pat = pc :: pt) (s : List Char) (hs : ∀ c ∈ s, c ≠ pc) :
    replaceAll pat rep s = s := by
  induction s with
  | nil => rfl
  | cons c s ih =>
    rw [replaceAll_skip_char pat rep hp s (hs c (List.mem_cons_self c s))]
    rw [ih fun d hd => hs d (List.mem_cons_of_mem _ hd)]

lemma replaceAll_chunk (pat rep : List Char) {pc : Char} {pt : List Char}
    (hp : pat = pc :: pt) (A rest : List Char) (hA : ∀ c ∈ A, c ≠ pc) :
    replaceAll pat rep (A ++ (pat ++ rest)) = A ++ (rep ++ replaceAll pat rep rest) := by
  induction A with
  | nil => simpa using replaceAll_emit pat rep (by simp [hp]) rest
  | cons a A ih =>
    rw [List.cons_append, replaceAll_skip_char pat rep hp _ (hA a (List.mem_cons_self a A))]
    rw [ih fun d hd => hA d (List.mem_cons_of_mem _ hd), List.cons_append]

lemma isPrefixOf_append_eq_false :
    ∀ (pat q : List Char) (i : Nat), i < pat.length → i < q.length →
      pat.getD i ' ' ≠ q.getD i ' ' → ∀ x, pat.isPrefixOf (q ++ x) = false := by
  intro pat
  induction pat with
  | nil => intro q i hi; simp at hi
  | cons p0 pt ih =>
    intro q i hiP hiQ hne x
    cases q with
    | nil => simp at hiQ
    | cons q0 qt =>
      show (p0 :: pt).isPrefixOf (q0 :: (qt ++ x)) = false
      cases i with
      | zero =>
        have hb : (p0 == q0) = false := beq_eq_false_iff_ne.mpr (by simpa using hne)
        simp [ List.isPrefixOf, hb]
      | succ i =>
        by_cases h0 : p0 = q0
        · have hpt := ih qt i (by simpa using hiP) (by simpa using hiQ)
            (by simpa using hne) x
          simp [ List.isPrefixOf, h0, hpt]
        · have hb : (p0 == q0) = false := beq_eq_false_iff_ne.mpr h0
          simp [ List.isPrefixOf, hb]

/-- Texts built from characters other than `g` and whole copies of the
block `q`: inside the templates of claim C1, every occurrence of the guard
character `<` that is not part of the marker being substituted opens a
whole copy of one specific other marker. -/
inductive GuardSeq (g : Char) (q : List Char) : List Char → Prop
  | nil : GuardSeq g q []
  | ch : ∀ (c : Char) (s : List Char), c ≠ g → GuardSeq g q s → GuardSeq g q (c :: s)
  | blk : ∀ (s : List Char), GuardSeq g q s → GuardSeq g q (q ++ s)

lemma guardSeq_of_chars (g : Char) (q : List Char) (s : List Char)
    (hs : ∀ c ∈ s, c ≠ g) : GuardSeq g q s := by
  induction s with
  | nil => exact .nil
  | cons c s ih =>
    exact .ch c s (hs c (List.mem_cons_self c s))
      (ih fun d hd => hs d (List.mem_cons_of_mem _ hd))

lemma guardSeq_append (g : Char) (q : List Char) (l s : List Char)
    (hl : ∀ c ∈ l, c ≠ g) (h : GuardSeq g q s) : GuardSeq g q (l ++ s) := by
  induction l with
  | nil => simpa using h
  | cons c l ih =>
    exact .ch c _ (hl c (List.mem_cons_self c l))
      (ih fun d hd => hl d (List.mem_cons_of_mem _ hd))

lemma replaceAll_guardSeq (pat rep q : List Char) (g : Char) (pt : List Char)
    (hpat : pat = g :: pt) (q0 : Char) (qt : List Char) (hq : q = q0 :: qt)
    (hqt : ∀ c ∈ qt, c ≠ g)
    (hmis : ∀ x, pat.isPrefixOf (q ++ x) = false) :
    ∀ (n : Nat) (s : List Char), s.length ≤ n → GuardSeq g q s →
      replaceAll pat rep s = s := by
  subst hq
  intro n
  induction n with
  | zero =>
    intro s hs _
    have ht : s = [] := List.eq_nil_of_length_eq_zero (Nat.le_zero.mp hs)
    subst ht
    rfl
  | succ n ih =>
    intro s hs hgs
    cases hgs with
    | nil => rfl
    | ch c s' hcg h' =>
      rw [replaceAll_skip_char pat rep hpat s' hcg]
      rw [ih s' (by simpa using Nat.le_of_succ_le_succ (by simpa using hs)) h']
    | blk s' h' =>
      have hps : pat.isPrefixOf (q0 :: (qt ++ s')) = false := by
        have hx := hmis s'
        rwa [List.cons_append] at hx
      rw [List.cons_append, replaceAll_cons_neg _ _ hps]
      have hg2 : GuardSeq g (q0 :: qt) (qt ++ s') := guardSeq_append _ _ _ _ hqt h'
      have hlen : (qt ++ s').length ≤ n := by
        have := hs
        simp only [List.cons_append, List.length_cons, List.length_append] at this ⊢
        omega
      rw [ih (qt ++ s') hlen hg2]

lemma all_ne_append {g : Char} {l1 l2 : List Char}
    (h1 : ∀ c ∈ l1, c ≠ g) (h2 : ∀ c ∈ l2, c ≠ g) : ∀ c ∈ l1 ++ l2, c ≠ g := by
  intro c hc
  rcases List.mem_append.mp hc with h | h
  · exact h1 c h
  · exact h2 c h

/-! ## Claim C1 -/

/-- The template used to refute claim C1: the TITLE marker occurs twice. -/
def tplTwoTitles : List Char := "A<!-- TITLE -->B<!-- TITLE -->C".toList

/-- C1 (counterexample): on a template containing the TITLE marker twice,
`process_page`'s substitution (Python `str.replace`) rewrites both
occurrences, while the substitution described by the claim (first
occurrence only, later occurrences left verbatim) would keep the second
marker; the two results differ. -/
theorem C1_counterexample :
    substitute tplTwoTitles ("T".toList) ("g".toList) ("b".toList)
        = "ATBTC".toList
  ∧ substituteFirstOnly tplTwoTitles ("T".toList) ("g".toList) ("b".toList)
        = "ATB<!-- TITLE -->C".toList
  ∧ substitute tplTwoTitles ("T".toList) ("g".toList) ("b".toList)
        ≠ substituteFirstOnly tplTwoTitles ("T".toList) ("g".toList) ("b".toList) := by
  refine ⟨by decide, by decide, by decide⟩

/-- C1 (amended): substitution replaces **every** occurrence of each marker
literal — TITLE with the derived title, BACKGROUND with the background
token, CONTENT with the stripped body — not only the first; no occurrence
is left verbatim.  Stated for templates in which a marker occurs twice,
separated by marker-free text, with marker-free replacement strings. -/
theorem C1_amended_replaces_every_occurrence
    (A B C ti bg ct : List Char)
    (hA : ∀ c ∈ A, c ≠ '<') (hB : ∀ c ∈ B, c ≠ '<') (hC : ∀ c ∈ C, c ≠ '<')
    (hti : ∀ c ∈ ti, c ≠ '<') (hbg : ∀ c ∈ bg, c ≠ '<') :
    substitute (A ++ (titleMarker ++ (B ++ (titleMarker ++ C)))) ti bg ct
        = A ++ (ti ++ (B ++ (ti ++ C)))
  ∧ substitute (A ++ (backgroundMarker ++ (B ++ (backgroundMarker ++ C)))) ti bg ct
        = A ++ (bg ++ (B ++ (bg ++ C)))
  ∧ substitute (A ++ (contentMarker ++ (B ++ (contentMarker ++ C)))) ti bg ct
        = A ++ (ct ++ (B ++ (ct ++ C))) := by
  have hT : titleMarker = '<' :: ("!-- TITLE -->".toList) := by decide
  have hG : backgroundMarker = '<' :: ("!-- BACKGROUND -->".toList) := by decide
  have hK : contentMarker = '<' :: ("!-- CONTENT -->".toList) := by decide
  have hGt : ∀ c ∈ ("!-- BACKGROUND -->".toList), c ≠ '<' := by decide
  have hKt : ∀ c ∈ ("!-- CONTENT -->".toList), c ≠ '<' := by decide
  have hmisTG : ∀ x, titleMarker.isPrefixOf (backgroundMarker ++ x) = false :=
    isPrefixOf_append_eq_false titleMarker backgroundMarker 5 (by decide) (by decide)
      (by decide)
  have hmisTK : ∀ x, titleMarker.isPrefixOf (contentMarker ++ x) = false :=
    isPrefixOf_append_eq_false titleMarker contentMarker 5 (by decide) (by decide)
      (by decide)
  have hmisGK : ∀ x, backgroundMarker.isPrefixOf (contentMarker ++ x) = false :=
    isPrefixOf_append_eq_false backgroundMarker contentMarker 5 (by decide) (by decide)
      (by decide)
  refine ⟨?_, ?_, ?_⟩
  · -- TITLE doubled: the first pass replaces both occurrences, the two
    -- later passes find no marker.
    have e1 : replaceAll titleMarker ti (A ++ (titleMarker ++ (B ++ (titleMarker ++ C))))
        = A ++ (ti ++ (B ++ (ti ++ C))) := by
      rw [replaceAll_chunk titleMarker ti hT A _ hA,
        replaceAll_chunk titleMarker ti hT B C hB,
        replaceAll_of_all_ne titleMarker ti hT C hC]
    have hall : ∀ c ∈ A ++ (ti ++ (B ++ (ti ++ C))), c ≠ '<' :=
      all_ne_append hA (all_ne_append hti (all_ne_append hB (all_ne_append hti hC)))
    simp only [substitute]
    rw [e1, replaceAll_of_all_ne backgroundMarker bg hG _ hall,
      replaceAll_of_all_ne contentMarker ct hK _ hall]
  · -- BACKGROUND doubled: the TITLE pass matches nothing, the BACKGROUND
    -- pass replaces both occurrences, the CONTENT pass matches nothing.
    have g1 : GuardSeq '<' backgroundMarker
        (A ++ (backgroundMarker ++ (B ++ (backgroundMarker ++ C)))) :=
      guardSeq_append _ _ A _ hA (.blk _ (guardSeq_append _ _ B _ hB
        (.blk _ (guardSeq_of_chars _ _ C hC))))
    have e1 : replaceAll titleMarker ti
        (A ++ (backgroundMarker ++ (B ++ (backgroundMarker ++ C))))
        = A ++ (backgroundMarker ++ (B ++ (backgroundMarker ++ C))) :=
      replaceAll_guardSeq titleMarker ti backgroundMarker '<' _ hT '<' _ hG hGt hmisTG
        _ _ (Nat.le_refl _) g1
    have e2 : replaceAll backgroundMarker bg
        (A ++ (backgroundMarker ++ (B ++ (backgroundMarker ++ C))))
        = A ++ (bg ++ (B ++ (bg ++ C))) := by
      rw [replaceAll_chunk backgroundMarker bg hG A _ hA,
        replaceAll_chunk backgroundMarker bg hG B C hB,
        replaceAll_of_all_ne backgroundMarker bg hG C hC]
    have hall : ∀ c ∈ A ++ (bg ++ (B ++ (bg ++ C))), c ≠ '<' :=
      all_ne_append hA (all_ne_append hbg (all_ne_append hB (all_ne_append hbg hC)))
    simp only [substitute]
    rw [e1, e2, replaceAll_of_all_ne contentMarker ct hK _ hall]
  · -- CONTENT doubled: the first two passes match nothing, the CONTENT
    -- pass replaces both occurrences.
    have g1 : GuardSeq '<' contentMarker
        (A ++ (contentMarker ++ (B ++ (contentMarker ++ C)))) :=
      guardSeq_append _ _ A _ hA (.blk _ (guardSeq_append _ _ B _ hB
        (.blk _ (guardSeq_of_chars _ _ C hC))))
    have e1 : replaceAll titleMarker ti
        (A ++ (contentMarker ++ (B ++ (contentMarker ++ C))))
        = A ++ (contentMarker ++ (B ++ (contentMarker ++ C))) :=
      replaceAll_guardSeq titleMarker ti contentMarker '<' _ hT '<' _ hK hKt hmisTK
        _ _ (Nat.le_refl _) g1
    have e2 : replaceAll backgroundMarker bg
        (A ++ (contentMarker ++ (B ++ (contentMarker ++ C))))
        = A ++ (contentMarker ++ (B ++ (contentMarker ++ C))) :=
      replaceAll_guardSeq backgroundMarker bg contentMarker '<' _ hG '<' _ hK hKt hmisGK
        _ _ (Nat.le_refl _) g1
    have e3 : replaceAll contentMarker ct
        (A ++ (contentMarker ++ (B ++ (contentMarker ++ C))))
        = A ++ (ct ++ (B ++ (ct ++ C))) := by
      rw [replaceAll_chunk contentMarker ct hK A _ hA,
        replaceAll_chunk contentMarker ct hK B C hB,
        replaceAll_of_all_ne contentMarker ct hK C hC]
    simp only [substitute]
    rw [e1, e2, e3]

/-- Witness for `C1_amended_replaces_every_occurrence` at concrete inputs. -/
theorem C1_amended_witness :
    substitute ("x".toList ++ (titleMarker ++ ("y".toList ++ (titleMarker ++ "z".toList))))
        ("T".toList) ("g".toList) ("c".toList)
      = "x".toList ++ ("T".toList ++ ("y".toList ++ ("T".toList ++ "z".toList)))
  ∧ substitute
        ("x".toList ++ (backgroundMarker ++ ("y".toList ++ (backgroundMarker ++ "z".toList))))
        ("T".toList) ("g".toList) ("c".toList)
      = "x".toList ++ ("g".toList ++ ("y".toList ++ ("g".toList ++ "z".toList)))
  ∧ substitute
        ("x".toList ++ (contentMarker ++ ("y".toList ++ (contentMarker ++ "z".toList))))
        ("T".toList) ("g".toList) ("c".toList)
      = "x".toList ++ ("c".toList ++ ("y".toList ++ ("c".toList ++ "z".toList))) :=
  C1_amended_replaces_every_occurrence ("x".toList) ("y".toList) ("z".toList)
    ("T".toList) ("g".toList) ("c".toList)
    (by decide) (by decide) (by decide) (by decide) (by decide)

/-! ## Claims C2, C3, C8: the build pipeline -/

lemma cleanChildren_eq_filter : ∀ (l init : List Node),
    cleanChildren l init
      = init.filter fun n => l.all fun i => nodeName n ≠ nodeName i := by
  intro l
  induction l with
  | nil => intro init; simp [cleanChildren]
  | cons a l ih =>
    intro init
    unfold cleanChildren
    rw [List.foldl_cons]
    have h := ih (init.filter fun n => nodeName n ≠ nodeName a)
    unfold cleanChildren at h
    rw [h, List.filter_filter]
    apply List.filter_congr
    intro n _
    simp [List.all_cons, Bool.and_comm]

lemma cleanChildren_self (l : List Node) : cleanChildren l l = [] := by
  rw [cleanChildren_eq_filter]
  refine List.filter_eq_nil_iff.mpr ?_
  intro n hn hcontra
  have h2 := List.all_eq_true.mp hcontra n hn
  simp at h2

/-- Fixture: a template store holding one template, `base.html`. -/
def tpls0 : List (List Char × List Char) :=
  [("base.html".toList,
    "<html><!-- TITLE --> <!-- BACKGROUND --> <!-- CONTENT --></html>".toList)]

/-- Fixture: a page with both directives referencing `base`. -/
def goodPage : Page :=
  ⟨"my-page".toList,
   "<!-- TEMPLATE: base -->\n<!-- BACKGROUND: img.png -->\nHello".toList⟩

/-- Fixture: a page with no directives at all. -/
def badPage : Page := ⟨"bad".toList, "<p>no directives</p>".toList⟩

/-- Fixture: a project tree with one good and one bad page. -/
def fs0 : FS := ⟨some tpls0, some [goodPage, badPage], none, some ⟨5, []⟩⟩

/-- C2: a page that is skipped (missing directive or missing template)
produces zero output files and leaves every other page's output untouched,
wherever it sits in the page list; with the templates root present the
overall outcome is success regardless of such pages, and the files written
are exactly the outputs of the individually compiled pages. -/
theorem C2_bad_page_never_aborts_build :
    (∀ tpls p r xs ys, processPage tpls p = .error r →
      pageOutputs tpls (xs ++ p :: ys) = pageOutputs tpls (xs ++ ys))
  ∧ (∀ fresh fs ts, fs.templates = some ts → (build fresh fs).success = true)
  ∧ (∀ fresh fs ts ps, fs.templates = some ts → fs.pages = some ps →
      (build fresh fs).written = pageOutputs ts ps) := by
  refine ⟨?_, ?_, ?_⟩
  · intro tpls p r xs ys h
    simp [pageOutputs, List.filterMap_append, List.filterMap_cons, h, Except.toOption]
  · intro fresh fs ts hts
    simp [build, hts]
  · intro fresh fs ts ps hts hps
    simp [build, hts, hps]

/-- Fixture: a page whose referenced template does not exist. -/
def ghostPage : Page :=
  ⟨"ghost".toList,
   "<!-- TEMPLATE: nosuch -->\n<!-- BACKGROUND: a.png -->\nX".toList⟩

/-- Witness for `C2_bad_page_never_aborts_build`: the directive-less
`badPage` and the template-less `ghostPage` contribute nothing while
`goodPage` still compiles, and the build as a whole succeeds. -/
theorem C2_witness :
    pageOutputs tpls0 ([goodPage] ++ badPage :: []) = pageOutputs tpls0 ([goodPage] ++ [])
  ∧ pageOutputs tpls0 ([] ++ ghostPage :: [goodPage]) = pageOutputs tpls0 ([] ++ [goodPage])
  ∧ (build 7 fs0).success = true
  ∧ (build 7 fs0).written = pageOutputs tpls0 [goodPage, badPage] :=
  ⟨C2_bad_page_never_aborts_build.1 tpls0 badPage .noTemplate [goodPage] [] rfl,
   C2_bad_page_never_aborts_build.1 tpls0 ghostPage .templateNotFound [] [goodPage] rfl,
   C2_bad_page_never_aborts_build.2.1 7 fs0 tpls0 rfl,
   C2_bad_page_never_aborts_build.2.2 7 fs0 tpls0 [goodPage, badPage] rfl rfl⟩

/-- Fixture: a project tree whose templates root is missing but which has
pages, data, and a non-empty build root. -/
def fsNoTemplates : FS :=
  ⟨none, some [goodPage], some [(["img.png".toList], "IMG".toList)],
   some ⟨9, [.file ("old.html".toList) ("stale".toList)]⟩⟩

/-- C3: when the templates root does not exist, `build` reports failure
immediately: no step (clean, copy-data, compile-pages) runs, nothing is
written, and the build root is left exactly as it was. -/
theorem C3_missing_templates_fails_before_any_step :
    ∀ fresh fs, fs.templates = none →
      (build fresh fs).success = false
      ∧ (build fresh fs).stepsRun = []
      ∧ (build fresh fs).written = []
      ∧ (build fresh fs).root = fs.buildRoot := by
  intro fresh fs h
  simp [build, h]

/-- Witness for `C3_missing_templates_fails_before_any_step`. -/
theorem C3_witness :
    (build 3 fsNoTemplates).success = false
    ∧ (build 3 fsNoTemplates).stepsRun = []
    ∧ (build 3 fsNoTemplates).written = []
    ∧ (build 3 fsNoTemplates).root = fsNoTemplates.buildRoot :=
  C3_missing_templates_fails_before_any_step 3 fsNoTemplates rfl

/-- Fixture: a build root with a file child and a directory child. -/
def dirtyRoot : Option BuildRoot :=
  some ⟨5, [.file ("a.html".toList) ("x".toList),
            .dir ("sub".toList) [.file ("b.css".toList) ("y".toList)]]⟩

/-- C8: the clean step removes exactly the direct children of the build
root (directory children wholesale, file children individually, so the
listed directory ends empty) and keeps the build root directory object
itself — same identity, never deleted; a missing build root is created
empty. -/
theorem C8_clean_removes_children_keeps_root :
    ∀ (fresh : Nat) (b : Option BuildRoot),
      (∀ r, b = some r → cleanBuildDir fresh b = ⟨r.inode, []⟩)
    ∧ (b = none → cleanBuildDir fresh b = ⟨fresh, []⟩) := by
  intro fresh b
  constructor
  · intro r hr
    subst hr
    simp [cleanBuildDir, cleanChildren_self]
  · intro hn
    subst hn
    rfl

/-- Witness for `C8_clean_removes_children_keeps_root`: cleaning a root
with identity 5 holding a file and a directory keeps identity 5 and
empties it. -/
theorem C8_witness : cleanBuildDir 3 dirtyRoot = ⟨5, []⟩ :=
  (C8_clean_removes_children_keeps_root 3 dirtyRoot).1
    ⟨5, [.file ("a.html".toList) ("x".toList),
         .dir ("sub".toList) [.file ("b.css".toList) ("y".toList)]]⟩ rfl

/-! ## Claims C4, C5, C10: the dev server -/

lemma shouldRebuild_le_of_true (st : WatcherState) (p : List Char) (now : ℚ)
    (h : shouldRebuild st p now = true) : debounceSeconds ≤ now - st.lastRebuild := by
  unfold shouldRebuild at h
  by_cases h1 : "build".toList ∈ pathParts p
  · rw [if_pos h1] at h
    exact absurd h (by simp)
  · rw [if_neg h1] at h
    by_cases h2 : pySuffix (pathName p) ∉ relevantExtensions
    · rw [if_pos h2] at h
      exact absurd h (by simp)
    · rw [if_neg h2] at h
      by_cases h3 : now - st.lastRebuild < debounceSeconds
      · rw [if_pos h3] at h
        exact absurd h (by simp)
      · exact le_of_not_lt h3

lemma shouldRebuild_false_in_window (st : WatcherState) (p : List Char) (now : ℚ)
    (ht : now - st.lastRebuild < debounceSeconds) : shouldRebuild st p now = false := by
  unfold shouldRebuild
  split_ifs with h1 h2
  · rfl
  · rfl
  · rfl

lemma handleEvent_accepts (st : WatcherState) (e : WatchEvent)
    (hq : isQualifying e = true) (ht : debounceSeconds ≤ e.time - st.lastRebuild) :
    handleEvent st e = (⟨e.time⟩, true) := by
  simp only [isQualifying, Bool.and_eq_true, Bool.not_eq_true', decide_eq_true_eq] at hq
  have hsr : shouldRebuild st e.path e.time = true := by
    unfold shouldRebuild
    rw [if_neg hq.1.2, if_neg (not_not_intro hq.2), if_neg (not_lt.mpr ht)]
  simp [handleEvent, hq.1.1, hsr]

lemma handleEvent_rejects_in_window (st : WatcherState) (e : WatchEvent)
    (ht : e.time - st.lastRebuild < debounceSeconds) : handleEvent st e = (st, false) := by
  have hsr := shouldRebuild_false_in_window st e.path e.time ht
  simp [handleEvent, hsr]

lemma foldl_watchStep_drops (st0 : WatcherState) :
    ∀ (rest : List WatchEvent) (n : Nat),
      (∀ e ∈ rest, e.time - st0.lastRebuild < debounceSeconds) →
      List.foldl watchStep (st0, n) rest = (st0, n) := by
  intro rest
  induction rest with
  | nil => intro n _; rfl
  | cons e rest ih =>
    intro n h
    rw [List.foldl_cons]
    have he := handleEvent_rejects_in_window st0 e (h e (List.mem_cons_self e rest))
    have hstep : watchStep (st0, n) e = (st0, n) := by
      simp [watchStep, he]
    rw [hstep]
    exact ih n fun d hd => h d (List.mem_cons_of_mem _ hd)

/-- C4: an event is accepted only when it falls at least `debounce_seconds`
(1 time unit) after the timestamp stored by the last accepted event; and a
burst headed by an accepted event whose remaining events all fall strictly
inside the following one-unit window yields exactly one accepted rebuild
trigger — the in-window events are dropped, not queued, and do not move
the recorded timestamp. -/
theorem C4_debounce_burst_accepts_exactly_one :
    (∀ st e, (handleEvent st e).2 = true →
      debounceSeconds ≤ e.time - st.lastRebuild)
  ∧ (∀ st (e0 : WatchEvent) (rest : List WatchEvent),
      isQualifying e0 = true →
      debounceSeconds ≤ e0.time - st.lastRebuild →
      (∀ e ∈ rest, e.time < e0.time + debounceSeconds) →
      processEvents st (e0 :: rest) = (⟨e0.time⟩, 1)) := by
  constructor
  · intro st e h
    by_cases hc : (!e.isDirectory && shouldRebuild st e.path e.time) = true
    · rw [Bool.and_eq_true] at hc
      exact shouldRebuild_le_of_true st e.path e.time hc.2
    · rw [handleEvent, if_neg hc] at h
      simp at h
  · intro st e0 rest hq ht hr
    unfold processEvents
    rw [List.foldl_cons]
    have hstep : watchStep (st, 0) e0 = (⟨e0.time⟩, 1) := by
      simp [watchStep, handleEvent_accepts st e0 hq ht]
    rw [hstep]
    exact foldl_watchStep_drops ⟨e0.time⟩ rest 1 fun e he => by
      have := hr e he
      simp only []
      linarith

/-- Fixtures for the debounce witness: a qualifying event at time 5 and two
follow-up events inside its one-unit window. -/
def ev0 : WatchEvent := ⟨"pages/a.html".toList, false, 5⟩

/-- Second event of the burst, at time 11/2. -/
def ev1 : WatchEvent := ⟨"pages/a.html".toList, false, 11 / 2⟩

/-- Third event of the burst, at time 59/10. -/
def ev2 : WatchEvent := ⟨"templates/b.css".toList, false, 59 / 10⟩

/-- Witness for `C4_debounce_burst_accepts_exactly_one`: a burst of three
qualifying events within one debounce window triggers exactly one rebuild,
and the accepted head event indeed cleared the window. -/
theorem C4_witness :
    processEvents ⟨0⟩ [ev0, ev1, ev2] = (⟨5⟩, 1)
  ∧ debounceSeconds ≤ ev0.time - (0 : ℚ) :=
  ⟨C4_debounce_burst_accepts_exactly_one.2 ⟨0⟩ ev0 [ev1, ev2] (by decide)
      (by norm_num [ev0, debounceSeconds])
      (by
        intro e he
        simp only [List.mem_cons, List.not_mem_nil, or_false] at he
        rcases he with rfl | rfl <;> norm_num [ev0, ev1, ev2, debounceSeconds]),
   C4_debounce_burst_accepts_exactly_one.1 ⟨0⟩ ev0
      (by
        rw [handleEvent_accepts ⟨0⟩ ev0 (by decide) (by norm_num [ev0, debounceSeconds])])⟩

/-- C5: whenever the underlying file read fails — missing file, OS error,
or permission error — the handler does not propagate the exception but
answers with status 503, a `Refresh: 2` auto-refresh header, and the
rebuilding placeholder body; successful reads are served unchanged. -/
theorem C5_read_failure_serves_rebuild_page :
    ∀ (e : ReadFailure),
      (doGET (.error e)).status = 503
      ∧ ("Refresh".toList, "2".toList) ∈ (doGET (.error e)).headers
      ∧ (doGET (.error e)).body = rebuildPageHtml
      ∧ ∀ r, doGET (.ok r) = r := by
  intro e
  refine ⟨rfl, ?_, rfl, fun r => rfl⟩
  simp [doGET]

/-- Witness for `C5_read_failure_serves_rebuild_page`, at a missing-file
failure. -/
theorem C5_witness :
    (doGET (.error .fileNotFound)).status = 503
    ∧ ("Refresh".toList, "2".toList) ∈ (doGET (.error .fileNotFound)).headers
    ∧ (doGET (.error .fileNotFound)).body = rebuildPageHtml
    ∧ ∀ r, doGET (.ok r) = r :=
  C5_read_failure_serves_rebuild_page .fileNotFound

/-- C10: the watch filter rejects every path containing a component
literally named `build`, at any depth; the exclusion is keyed to that
literal name, not to the configured build directory — a path through a
directory named otherwise (here `out`) still triggers. -/
theorem C10_literal_build_component_excluded :
    (∀ st p now, "build".toList ∈ pathParts p → shouldRebuild st p now = false)
  ∧ shouldRebuild ⟨0⟩ ("pages/out/main.html".toList) 5 = true := by
  constructor
  · intro st p now h
    unfold shouldRebuild
    rw [if_pos h]
  · unfold shouldRebuild
    rw [if_neg (by decide), if_neg (by decide), if_neg (by norm_num [debounceSeconds])]

/-- Witness for `C10_literal_build_component_excluded`: a stylesheet under
a nested `build` directory never triggers. -/
theorem C10_witness :
    shouldRebuild ⟨0⟩ ("pages/build/extra.css".toList) 99 = false :=
  C10_literal_build_component_excluded.1 ⟨0⟩ ("pages/build/extra.css".toList) 99
    (by decide)

/-! ## Claim C9 -/

/-- A page whose BACKGROUND directive precedes its TEMPLATE directive. -/
def bgFirstContent : List Char :=
  "<!-- BACKGROUND: img.png -->\n<!-- TEMPLATE: base -->\nHello".toList

/-- C9: when template extraction finds nothing at the very start of the
content (after optional whitespace), the page is skipped with the
missing-TEMPLATE diagnostic and contributes no output — demonstrated on a
page that has both directives but in swapped order. -/
theorem C9_template_directive_must_come_first :
    (∀ tpls p, (extractTemplateTag p.content).1 = none →
      processPage tpls p = .error .noTemplate)
  ∧ (extractTemplateTag bgFirstContent).1 = none
  ∧ (∀ tpls, pageOutputs tpls [⟨"about".toList, bgFirstContent⟩] = []) := by
  have main : ∀ tpls p, (extractTemplateTag p.content).1 = none →
      processPage tpls p = .error .noTemplate := by
    intro tpls p h
    rcases hx : extractTemplateTag p.content with ⟨o, c⟩
    rw [hx] at h
    simp only at h
    subst h
    simp [processPage, hx]
  refine ⟨main, by decide, ?_⟩
  intro tpls
  have hskip := main tpls ⟨"about".toList, bgFirstContent⟩ (by decide)
  refine List.filterMap_eq_nil_iff.mpr ?_
  intro a ha
  rcases List.mem_singleton.mp ha with rfl
  rw [hskip]
  rfl

/-- Witness for `C9_template_directive_must_come_first`. -/
theorem C9_witness :
    processPage tpls0 ⟨"about".toList, bgFirstContent⟩ = .error .noTemplate :=
  C9_template_directive_must_come_first.1 tpls0 ⟨"about".toList, bgFirstContent⟩
    (by decide)

/-! ## Claim C6 -/

/-- C6: the output path of every successfully compiled page is determined
solely by its stem, by the spec's rule: stem `index` (case-insensitively)
maps to `index.html` at the build root, any other stem `foo` to
`foo/index.html`. -/
theorem C6_output_path_determined_by_stem :
    ∀ tpls p path c, processPage tpls p = .ok (path, c) →
      path = specOutputPath p.stem := by
  intro tpls p path c h
  unfold processPage at h
  split at h
  · simp at h
  · split at h
    · simp at h
    · split at h
      · simp at h
      · simp only [Except.ok.injEq, Prod.mk.injEq] at h
        rw [← h.1]
        rfl

/-- Witness for `C6_output_path_determined_by_stem`: the fixture page with
stem `my-page` compiles and lands at `my-page/index.html`. -/
theorem C6_witness :
    ["my-page".toList, "index.html".toList] = specOutputPath ("my-page".toList) :=
  C6_output_path_determined_by_stem tpls0 goodPage
    (["my-page".toList, "index.html".toList])
    ("<html>My page img.png Hello</html>".toList) rfl

/-! ## Claim C7 -/

lemma char_toNat_ofNat_valid (n : Nat) (h : n < 55296) : (Char.ofNat n).toNat = n := by
  unfold Char.ofNat
  rw [dif_pos (Or.inl h)]
  rfl

lemma char_toNat_inj {c d : Char} (h : c.toNat = d.toNat) : c = d := by
  have h2 := congrArg Char.ofNat h
  rwa [Char.ofNat_toNat, Char.ofNat_toNat] at h2

lemma toLower_eq_of_lower (c l u : Char) (hlu : l.toNat = u.toNat + 32)
    (h1 : 97 ≤ l.toNat) (h2 : l.toNat ≤ 122) :
    c.toLower = l ↔ (c = l ∨ c = u) := by
  simp only [Char.toLower]
  constructor
  · intro h
    by_cases hc : c.toNat ≥ 65 ∧ c.toNat ≤ 90
    · rw [if_pos hc] at h
      right
      have h3 := congrArg Char.toNat h
      rw [char_toNat_ofNat_valid (c.toNat + 32) (by omega)] at h3
      exact char_toNat_inj (by omega)
    · rw [if_neg hc] at h
      exact Or.inl h
  · intro h
    rcases h with rfl | rfl
    · rw [if_neg (by omega)]
    · rw [if_pos (⟨by omega, by omega⟩ : c.toNat ≥ 65 ∧ c.toNat ≤ 90)]
      rw [show c.toNat + 32 = l.toNat by omega, Char.ofNat_toNat]

lemma toUpper_eq_of_upper (c u l : Char) (hlu : l.toNat = u.toNat + 32)
    (h1 : 65 ≤ u.toNat) (h2 : u.toNat ≤ 90) :
    c.toUpper = u ↔ (c = u ∨ c = l) := by
  simp only [Char.toUpper]
  constructor
  · intro h
    by_cases hc : c.toNat ≥ 97 ∧ c.toNat ≤ 122
    · rw [if_pos hc] at h
      right
      have h3 := congrArg Char.toNat h
      rw [char_toNat_ofNat_valid (c.toNat - 32) (by omega)] at h3
      exact char_toNat_inj (by omega)
    · rw [if_neg hc] at h
      exact Or.inl h
  · intro h
    rcases h with rfl | rfl
    · rw [if_neg (by omega)]
    · rw [if_pos (⟨by omega, by omega⟩ : c.toNat ≥ 97 ∧ c.toNat ≤ 122)]
      rw [show c.toNat - 32 = u.toNat by omega, Char.ofNat_toNat]

lemma hyphen_branch_lower (c l u : Char) (hlu : l.toNat = u.toNat + 32)
    (h1 : 97 ≤ l.toNat) (h2 : l.toNat ≤ 122)
    (h : Char.toLower (if c = '-' then ' ' else c) = l) : c = l ∨ c = u := by
  by_cases hc : c = '-'
  · rw [if_pos hc, show Char.toLower ' ' = ' ' from rfl] at h
    have hh : (32 : Nat) = l.toNat := congrArg Char.toNat h
    exact absurd hh (by omega)
  · rw [if_neg hc] at h
    exact (toLower_eq_of_lower c l u hlu h1 h2).mp h

lemma hyphen_branch_upper (c u l : Char) (hlu : l.toNat = u.toNat + 32)
    (h1 : 65 ≤ u.toNat) (h2 : u.toNat ≤ 90)
    (h : Char.toUpper (if c = '-' then ' ' else c) = u) : c = u ∨ c = l := by
  by_cases hc : c = '-'
  · rw [if_pos hc, show Char.toUpper ' ' = ' ' from rfl] at h
    have hh : (32 : Nat) = u.toNat := congrArg Char.toNat h
    exact absurd hh (by omega)
  · rw [if_neg hc] at h
    exact (toUpper_eq_of_upper c u l hlu h1 h2).mp h

/-- The post-transformation check `pretty_page_name == 'Index'` of
`builder.py` line 93 fires exactly for the stems that are `index` up to
case: the claim's "stem `index` (case-insensitive)" condition. -/
lemma capitalize_eq_Index_iff (stem : List Char) :
    pyCapitalize (hyphensToSpaces stem) = "Index".toList
      ↔ pyLower stem = "index".toList := by
  have hIdx : "Index".toList = ['I', 'n', 'd', 'e', 'x'] := rfl
  have hidx : "index".toList = ['i', 'n', 'd', 'e', 'x'] := rfl
  rw [hIdx, hidx]
  constructor
  · intro h
    rcases stem with _ | ⟨c0, _ | ⟨c1, _ | ⟨c2, _ | ⟨c3, _ | ⟨c4, _ | ⟨c5, t⟩⟩⟩⟩⟩⟩
    · simp [pyCapitalize, hyphensToSpaces] at h
    · simp [pyCapitalize, hyphensToSpaces] at h
    · simp [pyCapitalize, hyphensToSpaces] at h
    · simp [pyCapitalize, hyphensToSpaces] at h
    · simp [pyCapitalize, hyphensToSpaces] at h
    · simp only [hyphensToSpaces, List.map_cons, List.map_nil, pyCapitalize,
        List.cons.injEq, and_true] at h
      obtain ⟨h0, h1, h2, h3, h4⟩ := h
      have d0 := hyphen_branch_upper c0 'I' 'i' (by decide) (by decide) (by decide) h0
      have d1 := hyphen_branch_lower c1 'n' 'N' (by decide) (by decide) (by decide) h1
      have d2 := hyphen_branch_lower c2 'd' 'D' (by decide) (by decide) (by decide) h2
      have d3 := hyphen_branch_lower c3 'e' 'E' (by decide) (by decide) (by decide) h3
      have d4 := hyphen_branch_lower c4 'x' 'X' (by decide) (by decide) (by decide) h4
      rcases d0 with rfl | rfl <;> rcases d1 with rfl | rfl <;>
        rcases d2 with rfl | rfl <;> rcases d3 with rfl | rfl <;>
        rcases d4 with rfl | rfl <;> decide
    · simp [hyphensToSpaces, pyCapitalize] at h
  · intro h
    rcases stem with _ | ⟨c0, _ | ⟨c1, _ | ⟨c2, _ | ⟨c3, _ | ⟨c4, _ | ⟨c5, t⟩⟩⟩⟩⟩⟩
    · simp [pyLower] at h
    · simp [pyLower] at h
    · simp [pyLower] at h
    · simp [pyLower] at h
    · simp [pyLower] at h
    · simp only [pyLower, List.map_cons, List.map_nil, List.cons.injEq, and_true] at h
      obtain ⟨h0, h1, h2, h3, h4⟩ := h
      have d0 := (toLower_eq_of_lower c0 'i' 'I' (by decide) (by decide) (by decide)).mp h0
      have d1 := (toLower_eq_of_lower c1 'n' 'N' (by decide) (by decide) (by decide)).mp h1
      have d2 := (toLower_eq_of_lower c2 'd' 'D' (by decide) (by decide) (by decide)).mp h2
      have d3 := (toLower_eq_of_lower c3 'e' 'E' (by decide) (by decide) (by decide)).mp h3
      have d4 := (toLower_eq_of_lower c4 'x' 'X' (by decide) (by decide) (by decide)).mp h4
      rcases d0 with rfl | rfl <;> rcases d1 with rfl | rfl <;>
        rcases d2 with rfl | rfl <;> rcases d3 with rfl | rfl <;>
        rcases d4 with rfl | rfl <;> decide
    · simp [pyLower] at h

lemma upcaseFirstLowerRest_eq_pyCapitalize (l : List Char) :
    upcaseFirstLowerRest l = pyCapitalize l := by
  cases l <;> rfl

/-- C7 (counterexample): the claim predicts that only the first letter of
the hyphen-to-space image is changed, so stem `a-B` would yield `A B`;
`str.capitalize` also lowercases the rest, and the code yields `A b`. -/
theorem C7_counterexample :
    prettyPageName ("a-B".toList) = "A b".toList
  ∧ specTitleClaim ("a-B".toList) = "A B".toList
  ∧ prettyPageName ("a-B".toList) ≠ specTitleClaim ("a-B".toList) :=
  ⟨by decide, by decide, by decide⟩

/-- C7 (amended): the derived title is the stem with hyphens replaced by
spaces, the first character uppercased **and every remaining character
lowercased** (Python `str.capitalize`); a stem equal to `index` up to case
yields `Home` (in particular `my-page` still yields `My page`). -/
theorem C7_amended_title_rule (stem : List Char) :
    prettyPageName stem = specTitleAmended stem := by
  simp only [prettyPageName, specTitleAmended, upcaseFirstLowerRest_eq_pyCapitalize]
  by_cases hL : pyLower stem = "index".toList
  · rw [if_pos ((capitalize_eq_Index_iff stem).mpr hL), if_pos hL]
  · rw [if_neg (fun hcap => hL ((capitalize_eq_Index_iff stem).mp hcap)), if_neg hL]
    rfl

/-- Witness for `C7_amended_title_rule` at the stem `my-page`. -/
theorem C7_witness :
    prettyPageName ("my-page".toList) = specTitleAmended ("my-page".toList) :=
  C7_amended_title_rule ("my-page".toList)

end Site
